import Mathlib

set_option maxHeartbeats 1600000

/-!
# formQuay — submission intake and notification pipeline, shallowly embedded

This file embeds the server-side form router of the repository
(`server/routers/form-router.ts`, together with `prisma/schema.prisma`)
as pure Lean functions over an explicit database state, and proves the
behavioural properties of the intake/notification/reconciliation pipeline.

Conventions of the embedding:
* the relational store is a `DbState` record of lists of rows;
* each RPC handler becomes a function `DbState → ... → Except ApiErr α × DbState`
  returning the response (or the error the handler surfaces) together with the
  store after the call;
* `ApiErr.http` is an `HTTPException`-style structured error `{status, message}`;
  `ApiErr.thrown` is an exception that escapes the handler uncaught (store/driver
  errors, plain `Error` objects) and reaches the framework's generic handler;
* outcomes of external effects (the mail transport send, store failures inside
  multi-statement deletes) are passed as explicit parameters, since the code
  only branches on success/thrown;
* timestamps are `Nat` milliseconds; `cuid` identifiers are `String` parameters.
-/

/-- A JSON value, as stored in the `Json` columns (`Submission.data`). An
object is an association list; lookup takes the first binding of a key. -/
inductive JsonVal where
  | str (s : String)
  | num (n : Int)
  | jbool (b : Bool)
  | jnull
  | obj (fields : List (String × JsonVal))

/-- Plan tier of a tenant (`enum Plan` in `schema.prisma`). -/
inductive Plan where
  | FREE
  | STANDARD
  | PRO
deriving DecidableEq, Repr

/-- The `enum NotificationType` in `schema.prisma`. -/
inductive NotifType where
  | SUBMISSION_CONFIRMATION
  | DEVELOPER_NOTIFICATION
  | DIGEST
deriving DecidableEq, Repr

/-- The `enum NotificationStatus` in `schema.prisma`. -/
inductive NotifStatus where
  | SENT
  | FAILED
  | SKIPPED
deriving DecidableEq, Repr

/-- The fields of `model User` consumed by the form router. -/
structure UserRec where
  id : String
  plan : Plan
  email : String
deriving DecidableEq, Repr

/-- The `model Form` row (the `schema` descriptor is irrelevant to the pipeline). -/
structure FormRec where
  id : String
  name : String
  userId : String
deriving DecidableEq, Repr

/-- The `model EmailSettings` row — 1:1 with a form via the unique `formId`. -/
structure EmailSettingsRec where
  formId : String
  enabled : Bool
  fromEmail : Option String
  subject : Option String
  template : Option String
  replyTo : Option String
  developerNotificationsEnabled : Bool
  developerEmail : Option String
  maxNotificationsPerHour : Nat
deriving DecidableEq, Repr

/-- The `model Submission` row; `email` is the nullable indexed copy of `data.email`. -/
structure SubmissionRec where
  id : String
  formId : String
  data : List (String × JsonVal)
  email : Option String
  createdAt : Nat

/-- The `model NotificationLog` row — append-only delivery-attempt record. -/
structure NotificationLogRec where
  id : String
  formId : String
  submissionId : String
  type : NotifType
  status : NotifStatus
  error : Option String
  createdAt : Nat
deriving DecidableEq, Repr

/-- The `model GlobalSettings` row — per-tenant fallback, unique per `userId`. -/
structure GlobalSettingsRec where
  userId : String
  developerNotificationsEnabled : Bool
  maxNotificationsPerHour : Nat
deriving DecidableEq, Repr

/-- The durable store: one list of rows per table the router touches. -/
structure DbState where
  users : List UserRec
  forms : List FormRec
  emailSettings : List EmailSettingsRec
  submissions : List SubmissionRec
  notificationLogs : List NotificationLogRec
  globalSettings : List GlobalSettingsRec

/-- A response error. `http` models `HTTPException(status, {message})`;
`thrown` models an exception that leaves the handler uncaught. -/
inductive ApiErr where
  | http (status : Nat) (message : String)
  | thrown (message : String)
deriving DecidableEq, Repr

def findForm (st : DbState) (fid : String) : Option FormRec :=
  st.forms.find? (fun f => f.id == fid)

def findUser (st : DbState) (uid : String) : Option UserRec :=
  st.users.find? (fun u => u.id == uid)

def findEmailSettings (st : DbState) (fid : String) : Option EmailSettingsRec :=
  st.emailSettings.find? (fun e => e.formId == fid)

/-- Whether the form `fid` exists and belongs to user `uid`
(the `form: { userId }` relational filter used in the where clauses). -/
def formOwnedBy (st : DbState) (fid uid : String) : Bool :=
  (st.forms.find? (fun f => f.id == fid)).any (fun f => f.userId == uid)

/-- Field access on a JSON object represented as an association list. -/
def lookupField (data : List (String × JsonVal)) (k : String) : Option JsonVal :=
  (data.find? (fun p => p.1 == k)).map (fun p => p.2)

/-- JavaScript test `data.email && typeof data.email === 'string'`: the value
must be a string and truthy, and the empty string is falsy. -/
def jsonTruthyString : Option JsonVal → Bool
  | some (.str s) => s != ""
  | _ => false

/-- JavaScript truthiness of a nullable string (`submission.email`,
`startDate`, ...): present and non-empty. -/
def optStrTruthy : Option String → Bool
  | some s => s != ""
  | none => false

/-- The value Prisma stores into the nullable `String? email` column for
`email: data.email`: absent/null map to NULL, a string is stored as-is, and
any other JSON value makes `submission.create` throw a client validation
error before any row is written. -/
def emailForStore : Option JsonVal → Except String (Option String)
  | none => .ok none
  | some .jnull => .ok none
  | some (.str s) => .ok (some s)
  | some _ => .error "PrismaClientValidationError: invalid value for field email"

/-- Request metadata headers read by the submit handler. -/
structure ReqCtx where
  userAgent : Option String
  cfCountry : Option String
  acceptLanguage : Option String
  ip : Option String
deriving DecidableEq, Repr

/-- Modelled from the spec: the analytics field extraction inside
`enhanceDataWithAnalytics` (`src/lib/analytics-utils`) is not among the
provided sources; spec section 4.2 describes it as a pure function from the
request headers to a `{browser, os?, country, language?}` object. -/
def metaObject (ctx : ReqCtx) : JsonVal :=
  .obj [("browser", .str (ctx.userAgent.getD "Unknown")),
        ("os", .str (ctx.userAgent.getD "Unknown")),
        ("country", .str (ctx.cfCountry.getD "Unknown")),
        ("language", .str (ctx.acceptLanguage.getD "Unknown"))]

/-- Modelled from the spec: `enhanceDataWithAnalytics`
(`src/lib/analytics-utils`) is not among the provided sources. Spec
section 4.2: the enrichment writes the derived fields under `data._meta`,
never overwrites a field present in the original payload, and passes all
original keys through unchanged. -/
def enhanceDataWithAnalytics (data : List (String × JsonVal)) (ctx : ReqCtx) :
    List (String × JsonVal) :=
  if (lookupField data "_meta").isSome then data
  else data ++ [("_meta", metaObject ctx)]

/-- Modelled from the spec: `getQuotaByPlan` (`src/config/usage`) is not among
the provided sources; spec section 4.1 only fixes that each plan maps to a
`maxForms` and a `maxSubmissionsPerMonth` cap, so the pipeline takes the
quota table as an explicit `Plan → Quota` parameter. -/
structure Quota where
  maxForms : Nat
  maxSubmissionsPerMonth : Nat
deriving DecidableEq, Repr

/-- The count `db.submission.count({where: {form: {userId}, createdAt: {gte: monthStart}}})`:
submissions across all of the owner's forms created since the start of the
current calendar month (`monthStart` = `startOfMonth(new Date())`). -/
def monthlyCount (st : DbState) (ownerId : String) (monthStart : Nat) : Nat :=
  st.submissions.countP
    (fun s => formOwnedBy st s.formId ownerId && decide (monthStart ≤ s.createdAt))

/-- The 403 message of the monthly-quota rejection, carrying the current
count and the plan limit. -/
def monthlyLimitMsg (count limit : Nat) : String :=
  s!"Monthly submission limit reached ({count}/{limit}) for this plan"

/-- The `@@unique([formId, email])` constraint of `model Submission`:
an insert conflicts iff its email is non-NULL and a row with the same
`(formId, email)` pair exists (SQL NULLs never conflict). -/
def uniqueViolation (st : DbState) (fid : String) (em : Option String) : Bool :=
  match em with
  | some e => st.submissions.any (fun s => s.formId == fid && s.email == some e)
  | none => false

/-- Message of the uncaught Prisma P2002 unique-constraint error. -/
def p2002Msg : String :=
  "P2002: Unique constraint failed on the fields: (formId, email)"

/-- The read `(form.emailSettings as EmailSettings)?.enabled` with optional chaining:
a missing settings row reads as disabled. -/
def settingsEnabled : Option EmailSettingsRec → Bool
  | some es => es.enabled
  | none => false

/-- The single `SUBMISSION_CONFIRMATION` log row the submit handler creates
for the new submission. `gate` is the send condition
`(plan === 'STANDARD' || plan === 'PRO') && emailSettings?.enabled &&
data.email && typeof data.email === 'string'`; when it holds the status
follows the mail-transport outcome (`SENT`, or `FAILED` with the thrown
message), otherwise the handler writes the `SKIPPED` log. -/
def submitLog (formId newId logId : String) (now : Nat) (gate : Bool)
    (mailResult : Except String Unit) : NotificationLogRec :=
  if gate then
    match mailResult with
    | .ok _ => ⟨logId, formId, newId, .SUBMISSION_CONFIRMATION, .SENT, none, now⟩
    | .error m => ⟨logId, formId, newId, .SUBMISSION_CONFIRMATION, .FAILED, some m, now⟩
  else
    ⟨logId, formId, newId, .SUBMISSION_CONFIRMATION, .SKIPPED,
      some "Email not sent - plan or settings not configured", now⟩

/-- The response payload of a successful submit. -/
structure SubmitOk where
  id : String
  message : String
deriving DecidableEq, Repr

/-- The `formRouter.submit` handler. Steps, in source order: look up the form
with its owner and email settings (404 if absent); count this month's
submissions over all the owner's forms and reject with 403 when the plan
quota is reached; enrich the payload; insert the submission (an uncaught
store error on the unique `(formId, email)` constraint or on a non-string
`data.email` aborts here); then create exactly one confirmation
notification log row for the new submission, per `submitLog`.
`mailResult` is the outcome the mail transport (render + `resend.emails.send`)
would produce if the send is attempted; `newId`/`logId` are the cuids the
store assigns; `monthStart`/`now` are the clock readings. -/
def submit (Q : Plan → Quota) (st : DbState) (formId : String)
    (data : List (String × JsonVal)) (ctx : ReqCtx)
    (monthStart now : Nat) (newId logId : String)
    (mailResult : Except String Unit) :
    Except ApiErr SubmitOk × DbState :=
  match findForm st formId with
  | none => (.error (.http 404 "Form not found"), st)
  | some form =>
    match findUser st form.userId with
    | none => (.error (.thrown "relation integrity: form owner missing"), st)
    | some owner =>
      let mcount := monthlyCount st owner.id monthStart
      let quota := Q owner.plan
      if quota.maxSubmissionsPerMonth ≤ mcount then
        (.error (.http 403 (monthlyLimitMsg mcount quota.maxSubmissionsPerMonth)), st)
      else
        match emailForStore (lookupField data "email") with
        | .error m => (.error (.thrown m), st)
        | .ok em =>
          if uniqueViolation st formId em then
            (.error (.thrown p2002Msg), st)
          else
            let sub : SubmissionRec :=
              ⟨newId, formId, enhanceDataWithAnalytics data ctx, em, now⟩
            let gate := (owner.plan == Plan.STANDARD || owner.plan == Plan.PRO)
              && settingsEnabled (findEmailSettings st formId)
              && jsonTruthyString (lookupField data "email")
            (.ok ⟨newId, "Form submitted successfully"⟩,
             { st with
               submissions := st.submissions ++ [sub],
               notificationLogs := st.notificationLogs ++
                 [submitLog formId newId logId now gate mailResult] })

/-- Stable insertion into a list sorted by the Boolean relation `le`
(an element is placed before the first entry it compares `le` to, so
equal-comparing elements keep their input order). -/
def insertSorted (le : α → α → Bool) (a : α) : List α → List α
  | [] => [a]
  | b :: bs => if le a b then a :: b :: bs else b :: insertSorted le a bs

/-- Stable sort by a Boolean comparator, modelling `Array.prototype.sort`
(stable per the ECMAScript spec) and the store's `orderBy`. -/
def sortByBool (le : α → α → Bool) (l : List α) : List α :=
  l.foldr (insertSorted le) []

/-- The shape of one entry of the `notificationLogs` array the log-reading
endpoints return (persisted rows after formatting, or synthesized ones). -/
structure LogView where
  id : String
  type : NotifType
  status : NotifStatus
  error : Option String
  createdAt : Nat
deriving DecidableEq, Repr

/-- Formatting `log.error || null`: JavaScript coerces an empty error string to null. -/
def orNull : Option String → Option String
  | some s => if s == "" then none else some s
  | none => none

/-- Formatting of a persisted log row for the response
(`{...log, createdAt: toISOString, error: log.error || null}`; the ISO
timestamp is kept as the numeric instant, which it determines injectively). -/
def toLogView (l : NotificationLogRec) : LogView :=
  ⟨l.id, l.type, l.status, orNull l.error, l.createdAt⟩

/-- The optional status/type filter applied to the `notificationLogs`
relation inside the submission query (`notificationLogsWhere`). -/
def logMatchesFilter (statusF : Option NotifStatus) (typeF : Option NotifType)
    (l : NotificationLogRec) : Bool :=
  (match statusF with | some x => l.status == x | none => true) &&
  (match typeF with | some x => l.type == x | none => true)

/-- The persisted logs the store returns for one submission: rows with this
`submissionId` matching the status/type filters, ordered `createdAt` desc. -/
def persistedLogs (st : DbState) (sid : String) (statusF : Option NotifStatus)
    (typeF : Option NotifType) : List NotificationLogRec :=
  sortByBool (fun a b => decide (b.createdAt ≤ a.createdAt))
    (st.notificationLogs.filter
      (fun l => l.submissionId == sid && logMatchesFilter statusF typeF l))

/-- The transient `SUBMISSION_CONFIRMATION` entry synthesized at read time
when no persisted log of that type was fetched and the submission has a
truthy stored email. -/
def userSynthLog (s : SubmissionRec) : LogView :=
  ⟨"temp-" ++ s.id ++ "-user-email", .SUBMISSION_CONFIRMATION, .SKIPPED,
    some "Email not sent - plan or settings not configured", s.createdAt⟩

/-- The transient `DEVELOPER_NOTIFICATION` entry synthesized at read time
when no persisted log of that type was fetched:
`emailSettings?.developerNotificationsEnabled ? SKIPPED : FAILED`. -/
def devSynthLog (s : SubmissionRec) (es : Option EmailSettingsRec) : LogView :=
  if (match es with | some e => e.developerNotificationsEnabled | none => false) then
    ⟨"temp-" ++ s.id ++ "-dev-email", .DEVELOPER_NOTIFICATION, .SKIPPED,
      some "Developer notification not sent", s.createdAt⟩
  else
    ⟨"temp-" ++ s.id ++ "-dev-email", .DEVELOPER_NOTIFICATION, .FAILED,
      some "Developer notifications are disabled", s.createdAt⟩

/-- String name of a notification type, for the display comparator
(`a.type.localeCompare(b.type)`). -/
def typeName : NotifType → String
  | .SUBMISSION_CONFIRMATION => "SUBMISSION_CONFIRMATION"
  | .DEVELOPER_NOTIFICATION => "DEVELOPER_NOTIFICATION"
  | .DIGEST => "DIGEST"

/-- Code-unit-wise lexicographic string order, modelling
`String.prototype.localeCompare` on the ASCII type names. -/
def charListLt : List Char → List Char → Bool
  | _, [] => false
  | [], _ :: _ => true
  | c :: cs, d :: ds =>
    if c.toNat < d.toNat then true
    else if d.toNat < c.toNat then false
    else charListLt cs ds

/-- Whether `a.localeCompare(b) < 0` for the type-name strings. -/
def localeLt (a b : String) : Bool := charListLt a.toList b.toList

/-- Display order of the log list: by type name ascending, then newest
first within a type. -/
def logViewLe (a b : LogView) : Bool :=
  if a.type == b.type then decide (b.createdAt ≤ a.createdAt)
  else localeLt (typeName a.type) (typeName b.type)

/-- Read-time reconciliation of the log list of one submission, as performed
by `getSubmissionLogs`: format the fetched rows, append the transient
confirmation entry when none of that type was fetched and the stored email
is truthy, append the transient developer entry when none of that type was
fetched, then sort for display. Nothing is persisted. -/
def reconcileLogs (s : SubmissionRec) (persisted : List NotificationLogRec)
    (es : Option EmailSettingsRec) : List LogView :=
  let formatted := persisted.map toLogView
  let hasUser := formatted.any (fun l => l.type == NotifType.SUBMISSION_CONFIRMATION)
  let hasDev := formatted.any (fun l => l.type == NotifType.DEVELOPER_NOTIFICATION)
  let l1 := if !hasUser && optStrTruthy s.email then formatted ++ [userSynthLog s]
            else formatted
  let l2 := if !hasDev then l1 ++ [devSynthLog s es] else l1
  sortByBool logViewLe l2

/-- Case-insensitive substring test, for the `contains`/`string_contains`
filters with `mode: 'insensitive'`. -/
def strContainsSub (hay needle : String) : Bool :=
  let h := hay.toLower.toList
  let n := needle.toLower.toList
  (List.range (h.length + 1)).any (fun i => (h.drop i).take n.length == n)

/-- The free-text `OR` filter of `getSubmissionLogs`: id substring, email
substring, or a string match on the JSON field named `$.email` (on the
PostgreSQL provider the `path: ['$.email']` element is a literal key). -/
def searchMatches (q : String) (s : SubmissionRec) : Bool :=
  strContainsSub s.id q ||
  (match s.email with | some e => strContainsSub e q | none => false) ||
  (match lookupField s.data "$.email" with
   | some (.str v) => strContainsSub v q
   | _ => false)

/-- The input of `getSubmissionLogs` (zod defaults `page = 1`, `limit = 10`
already applied; the status/type strings already cast to their enums). -/
structure LogsParams where
  formId : Option String
  page : Nat
  limit : Nat
  status : Option NotifStatus
  type : Option NotifType
  search : Option String
  startDate : Option String
  endDate : Option String
deriving Repr

/-- The test `startDate || endDate` — a date filter is requested when either input
string is truthy. -/
def dateFilterRequested (p : LogsParams) : Bool :=
  optStrTruthy p.startDate || optStrTruthy p.endDate

/-- The `createdAt` range condition, added only when a date filter is
requested and the plan is PRO. `parseDate` abstracts `new Date(string)`;
the end bound is extended by one day (86400000 ms) to include the whole
end date. -/
def dateWhere (p : LogsParams) (plan : Plan) (parseDate : String → Nat)
    (s : SubmissionRec) : Bool :=
  if dateFilterRequested p && plan == Plan.PRO then
    (match p.startDate with
     | some d => if d != "" then decide (parseDate d ≤ s.createdAt) else true
     | none => true) &&
    (match p.endDate with
     | some d => if d != "" then decide (s.createdAt < parseDate d + 86400000) else true
     | none => true)
  else true

/-- The submission `where` clause of `getSubmissionLogs`: owned by the
caller, optional form filter, optional truthy free-text search, and the
plan-gated date range. -/
def submissionWhere (st : DbState) (uid : String) (p : LogsParams) (plan : Plan)
    (parseDate : String → Nat) (s : SubmissionRec) : Bool :=
  formOwnedBy st s.formId uid &&
  (match p.formId with | some f => s.formId == f | none => true) &&
  (match p.search with
   | some q => if q != "" then searchMatches q s else true
   | none => true) &&
  dateWhere p plan parseDate s

/-- Reads in the `meta.browser || 'Unknown'` style access into `data._meta` (the
enrichment writes string fields there; anything else reads as absent). -/
def metaField (data : List (String × JsonVal)) (k : String) : String :=
  match lookupField data "_meta" with
  | some (.obj fields) =>
    match lookupField fields k with
    | some (.str s) => if s != "" then s else "Unknown"
    | _ => "Unknown"
  | _ => "Unknown"

/-- One element of the `submissions` array `getSubmissionLogs` returns
(the nested form sub-object is carried through unchanged and elided). -/
structure SubmissionView where
  id : String
  createdAt : Nat
  email : Option String
  data : List (String × JsonVal)
  browser : String
  location : String
  notificationLogs : List LogView

/-- The enhancement step applied to each fetched submission: analytics
fields from `data._meta` plus the reconciled notification-log list. -/
def submissionView (st : DbState) (p : LogsParams) (s : SubmissionRec) :
    SubmissionView :=
  ⟨s.id, s.createdAt, s.email, s.data,
    metaField s.data "browser", metaField s.data "country",
    reconcileLogs s (persistedLogs st s.id p.status p.type)
      (findEmailSettings st s.formId)⟩

/-- The success payload of `getSubmissionLogs`. -/
structure LogsResult where
  submissions : List SubmissionView
  total : Nat
  pages : Nat
  currentPage : Nat

/-- The submissions matched by the `where` clause of the query. -/
def logsMatching (st : DbState) (uid : String) (p : LogsParams) (plan : Plan)
    (parseDate : String → Nat) : List SubmissionRec :=
  st.submissions.filter (submissionWhere st uid p plan parseDate)

/-- The page slice of the matched submissions: `orderBy createdAt desc`,
offset `(page-1)*limit`, `take limit`. -/
def logsPageItems (st : DbState) (uid : String) (p : LogsParams) (plan : Plan)
    (parseDate : String → Nat) : List SubmissionRec :=
  ((sortByBool (fun a b => decide (b.createdAt ≤ a.createdAt))
      (logsMatching st uid p plan parseDate)).drop ((p.page - 1) * p.limit)).take p.limit

/-- The body of the `try` block of `getSubmissionLogs`: resolve the caller's
plan (404 when missing), reject a requested date filter for a non-PRO plan
with the 403 plan-restriction error, then run the paginated query and
enhance each fetched row (`Math.ceil` of the total over the limit gives the
page count). -/
def getSubmissionLogsInner (st : DbState) (uid : String) (p : LogsParams)
    (parseDate : String → Nat) : Except ApiErr LogsResult :=
  match findUser st uid with
  | none => .error (.http 404 "User not found")
  | some user =>
    if dateFilterRequested p && user.plan != Plan.PRO then
      .error (.http 403 "Date filtering is only available with the PRO plan")
    else
      .ok ⟨(logsPageItems st uid p user.plan parseDate).map (submissionView st p),
           (logsMatching st uid p user.plan parseDate).length,
           ((logsMatching st uid p user.plan parseDate).length + p.limit - 1) / p.limit,
           p.page⟩

/-- The handler `formRouter.getSubmissionLogs`: the catch block rewraps every error the
try block throws — `HTTPException`s included — as an `HTTPException` with
status 500 carrying the original message. -/
def getSubmissionLogs (st : DbState) (uid : String) (p : LogsParams)
    (parseDate : String → Nat) : Except ApiErr LogsResult :=
  match getSubmissionLogsInner st uid p parseDate with
  | .error (.http _ m) => .error (.http 500 m)
  | .error (.thrown m) => .error (.http 500 m)
  | .ok r => .ok r

/-- The handler `formRouter.delete`: verify ownership (a failure here throws a plain
`Error`, which the catch rewraps as the generic message), then run the four
cascading deletes — notification logs, submissions, email settings, the form
— inside a single `db.$transaction`. `txFailure` is the store error (if any)
raised while the transaction runs; the transaction then rolls back, so the
store is unchanged, and the catch surfaces `Database error: <message>`. -/
def formDelete (st : DbState) (uid fid : String) (txFailure : Option String) :
    Except ApiErr Unit × DbState :=
  match st.forms.find? (fun f => f.id == fid && f.userId == uid) with
  | none => (.error (.thrown "Failed to delete form and its related data"), st)
  | some _ =>
    match txFailure with
    | some m => (.error (.thrown ("Database error: " ++ m)), st)
    | none =>
      (.ok (),
       { st with
         forms := st.forms.filter (fun f => f.id != fid),
         emailSettings := st.emailSettings.filter (fun e => e.formId != fid),
         submissions := st.submissions.filter (fun s => s.formId != fid),
         notificationLogs := st.notificationLogs.filter (fun l => l.formId != fid) })

/-- Which of the two sequential statements of `deleteSubmission` fails. -/
inductive SubDelFail where
  | onLogs (m : String)
  | onSubmission (m : String)
deriving DecidableEq, Repr

/-- The handler `formRouter.deleteSubmission`: fetch the submission with its form's
owner (404 when absent, 403 when not owned — both rethrown as-is by the
catch); then run `notificationLog.deleteMany` followed by
`submission.delete` as two separate awaited statements with no transaction.
A failure of the first statement changes nothing; a failure of the second
leaves the log deletion already applied. Store failures surface as the
catch's 500. -/
def deleteSubmission (st : DbState) (uid sid : String)
    (failure : Option SubDelFail) : Except ApiErr Unit × DbState :=
  match st.submissions.find? (fun s => s.id == sid) with
  | none => (.error (.http 404 "Submission not found"), st)
  | some sub =>
    match findForm st sub.formId with
    | none => (.error (.http 500 "Failed to delete submission"), st)
    | some form =>
      if form.userId != uid then
        (.error (.http 403 "You do not have permission to delete this submission"), st)
      else
        match failure with
        | some (.onLogs _) =>
          (.error (.http 500 "Failed to delete submission"), st)
        | some (.onSubmission _) =>
          (.error (.http 500 "Failed to delete submission"),
           { st with notificationLogs :=
               st.notificationLogs.filter (fun l => l.submissionId != sid) })
        | none =>
          (.ok (),
           { st with
             notificationLogs :=
               st.notificationLogs.filter (fun l => l.submissionId != sid),
             submissions := st.submissions.filter (fun s => s.id != sid) })

/-- The handler `formRouter.toggleEmailSettings`: a single nested
`form.update({where: {id, userId}, data: {emailSettings: {update: {enabled}}}})`.
No plan is read anywhere in the handler. A missing/foreign form or a form
without a settings row makes the store throw (uncaught P2025); otherwise the
`enabled` flag is set and `{success: true}` is returned. -/
def toggleEmailSettings (st : DbState) (uid fid : String) (enabled : Bool) :
    Except ApiErr Bool × DbState :=
  match st.forms.find? (fun f => f.id == fid && f.userId == uid) with
  | none => (.error (.thrown "P2025: record to update not found"), st)
  | some _ =>
    match findEmailSettings st fid with
    | none => (.error (.thrown "P2025: record to update not found"), st)
    | some _ =>
      (.ok true,
       { st with emailSettings :=
           st.emailSettings.map (fun e => if e.formId == fid then { e with enabled := enabled } else e) })

/-- The upsert `db.globalSettings.upsert` keyed by `userId`: update passes the input
fields through (an absent optional input leaves the column unchanged),
create applies the schema defaults `false` / `10`. Returns the
developer-notification flag and hourly cap of the resulting row. -/
def upsertGlobal (st : DbState) (uid : String) (devEnabled : Option Bool)
    (maxPerHour : Option Nat) : Except ApiErr (Bool × Nat) × DbState :=
  match st.globalSettings.find? (fun g => g.userId == uid) with
  | some g =>
    let g2 : GlobalSettingsRec :=
      ⟨uid, devEnabled.getD g.developerNotificationsEnabled,
        maxPerHour.getD g.maxNotificationsPerHour⟩
    (.ok (g2.developerNotificationsEnabled, g2.maxNotificationsPerHour),
     { st with globalSettings :=
         st.globalSettings.map (fun h => if h.userId == uid then g2 else h) })
  | none =>
    let g2 : GlobalSettingsRec := ⟨uid, devEnabled.getD false, maxPerHour.getD 10⟩
    (.ok (g2.developerNotificationsEnabled, g2.maxNotificationsPerHour),
     { st with globalSettings := st.globalSettings ++ [g2] })

/-- The form branch of `updateEmailSettings`: `emailSettings.upsert` keyed
by `formId` (create uses `enabled: false` and the defaults). -/
def upsertFormEmailSettings (st : DbState) (fid : String)
    (devEnabled : Option Bool) (maxPerHour : Option Nat) :
    Except ApiErr (Bool × Nat) × DbState :=
  match findEmailSettings st fid with
  | some e =>
    let e2 := { e with
      developerNotificationsEnabled := devEnabled.getD e.developerNotificationsEnabled,
      maxNotificationsPerHour := maxPerHour.getD e.maxNotificationsPerHour }
    (.ok (e2.developerNotificationsEnabled, e2.maxNotificationsPerHour),
     { st with emailSettings :=
         st.emailSettings.map (fun x => if x.formId == fid then e2 else x) })
  | none =>
    let e2 : EmailSettingsRec :=
      ⟨fid, false, none, none, none, none, devEnabled.getD false, none,
        maxPerHour.getD 10⟩
    (.ok (e2.developerNotificationsEnabled, e2.maxNotificationsPerHour),
     { st with emailSettings := st.emailSettings ++ [e2] })

/-- The handler `formRouter.updateEmailSettings`: when `formId` is the literal string
`'global'` the handler upserts the caller's GlobalSettings row directly —
without reading the caller's plan — and otherwise upserts the form's
EmailSettings row (also without any ownership or plan check). -/
def updateEmailSettings (st : DbState) (uid formId : String)
    (devEnabled : Option Bool) (maxPerHour : Option Nat) :
    Except ApiErr (Bool × Nat) × DbState :=
  if formId == "global" then upsertGlobal st uid devEnabled maxPerHour
  else upsertFormEmailSettings st formId devEnabled maxPerHour

/-- The message of the PRO-plan gate of `updateGlobalSettings`. -/
def proOnlyMsg : String :=
  "You need to be on the PRO plan to modify notification settings"

/-- The handler `formRouter.updateGlobalSettings`: resolve the caller (404 when
missing), reject any caller whose plan is not PRO with the 403
plan-restriction error (the catch rethrows `HTTPException`s unchanged),
and only then upsert the GlobalSettings row. -/
def updateGlobalSettings (st : DbState) (uid : String) (devEnabled : Option Bool)
    (maxPerHour : Option Nat) : Except ApiErr (Bool × Nat) × DbState :=
  match findUser st uid with
  | none => (.error (.http 404 "User not found"), st)
  | some user =>
    if user.plan != Plan.PRO then (.error (.http 403 proOnlyMsg), st)
    else upsertGlobal st uid devEnabled maxPerHour

/-!
## Concrete stores used by the closed counterexamples and witnesses

Small explicit database states exercising the pipeline at specific inputs.
-/

/-- A request with no analytics headers. -/
def noCtx : ReqCtx := ⟨none, none, none, none⟩

/-- The zod-defaulted query input: no filters, page 1, limit 10. -/
def defaultParams : LogsParams := ⟨none, 1, 10, none, none, none, none, none⟩

/-- A trivial date parser for closed evaluations. -/
def zeroDate : String → Nat := fun _ => 0

/-- A finite quota table: 10 forms, 100 submissions per month, every plan. -/
def smallQ : Plan → Quota := fun _ => ⟨10, 100⟩

def c1xUser : UserRec := ⟨"u1", Plan.STANDARD, "owner@example.com"⟩

def c1xForm : FormRec := ⟨"f1", "Contact", "u1"⟩

def c1xES : EmailSettingsRec := ⟨"f1", true, none, none, none, none, false, none, 10⟩

/-- STANDARD tenant, confirmation enabled, empty store otherwise. -/
def c1xSt : DbState := ⟨[c1xUser], [c1xForm], [c1xES], [], [], []⟩

/-- A payload whose `email` field is the empty string — a string value that
JavaScript truthiness rejects. -/
def c1xData : List (String × JsonVal) := [("email", JsonVal.str "")]

/-- A payload with an ordinary non-empty email string. -/
def c1wData : List (String × JsonVal) := [("email", JsonVal.str "a@b.c")]

def c3wUser : UserRec := ⟨"u1", Plan.FREE, "owner@example.com"⟩

def c3wForm : FormRec := ⟨"f1", "Contact", "u1"⟩

def c3wSt : DbState := ⟨[c3wUser], [c3wForm], [], [], [], []⟩

/-- A quota table whose monthly cap is zero: every submit is over quota. -/
def c3wQ : Plan → Quota := fun _ => ⟨1, 0⟩

def c4xSub : SubmissionRec := ⟨"s1", "f1", [("email", JsonVal.str "a@b.c")], some "a@b.c", 0⟩

/-- A store already holding a submission with `(formId, email) = ("f1", "a@b.c")`. -/
def c4xSt : DbState := ⟨[c1xUser], [c1xForm], [c1xES], [c4xSub], [], []⟩

def c7wUser : UserRec := ⟨"u1", Plan.FREE, "owner@example.com"⟩

/-- FREE tenant with confirmation enabled: the plan gate alone forces the
skip path. -/
def c7wSt : DbState := ⟨[c7wUser], [c1xForm], [c1xES], [], [], []⟩

def c2xSub : SubmissionRec := ⟨"s1", "f1", [], some "a@b.c", 10⟩

def c2xLog1 : NotificationLogRec :=
  ⟨"n1", "f1", "s1", .SUBMISSION_CONFIRMATION, .SENT, none, 20⟩

def c2xLog2 : NotificationLogRec :=
  ⟨"n2", "f1", "s1", .SUBMISSION_CONFIRMATION, .FAILED, some "smtp down", 30⟩

/-- A store with two persisted confirmation logs for one submission. -/
def c2xSt : DbState :=
  ⟨[⟨"u1", Plan.PRO, "owner@example.com"⟩], [c1xForm], [c1xES], [c2xSub],
    [c2xLog1, c2xLog2], []⟩

def c2wSub : SubmissionRec := ⟨"s1", "f1", [], some "a@b.c", 10⟩

/-- A store with one submission and no persisted logs at all. -/
def c2wSt : DbState :=
  ⟨[⟨"u1", Plan.PRO, "owner@example.com"⟩], [c1xForm], [c1xES], [c2wSub], [], []⟩

/-- The successful result of the log query over `c2wSt`. -/
def c2wRes : LogsResult :=
  (getSubmissionLogs c2wSt "u1" defaultParams zeroDate).toOption.getD ⟨[], 0, 0, 0⟩

/-- The single submission view of `c2wRes`. -/
def c2wView : SubmissionView :=
  c2wRes.submissions.getD 0 ⟨"", 0, none, [], "", "", []⟩

def c6wSt : DbState := ⟨[⟨"u1", Plan.STANDARD, "owner@example.com"⟩], [], [], [], [], []⟩

/-- A query input carrying a start date. -/
def c6wParams : LogsParams :=
  ⟨none, 1, 10, none, none, none, some "2024-01-01", none⟩

def c5Sub : SubmissionRec := ⟨"s1", "f1", [], none, 0⟩

def c5Log : NotificationLogRec :=
  ⟨"n1", "f1", "s1", .SUBMISSION_CONFIRMATION, .SKIPPED, some "skip", 0⟩

/-- A store with one submission owning one notification log. -/
def c5St : DbState :=
  ⟨[⟨"u1", Plan.FREE, "owner@example.com"⟩], [⟨"f1", "F", "u1"⟩], [], [c5Sub], [c5Log], []⟩

/-- A FREE tenant with no GlobalSettings row yet. -/
def c8St : DbState := ⟨[⟨"u1", Plan.FREE, "owner@example.com"⟩], [], [], [], [], []⟩

def c10User : UserRec := ⟨"u1", Plan.FREE, "owner@example.com"⟩

def c10ES : EmailSettingsRec := ⟨"f1", false, none, none, none, none, false, none, 10⟩

/-- A FREE tenant owning a form whose settings are currently disabled. -/
def c10St : DbState := ⟨[c10User], [⟨"f1", "F", "u1"⟩], [c10ES], [], [], []⟩

/-! ## Helper lemmas about the stable sort -/

theorem countP_insertSorted (le : α → α → Bool) (a : α) (l : List α) (p : α → Bool) :
    (insertSorted le a l).countP p = l.countP p + (if p a then 1 else 0) := by
  induction l with
  | nil => simp [insertSorted, List.countP_cons]
  | cons b bs ih =>
    cases hab : le a b with
    | true =>
      simp [insertSorted, hab, List.countP_cons]
    | false =>
      simp only [insertSorted, hab, Bool.false_eq_true, if_false, List.countP_cons, ih]
      omega

theorem countP_sortByBool (le : α → α → Bool) (l : List α) (p : α → Bool) :
    (sortByBool le l).countP p = l.countP p := by
  induction l with
  | nil => rfl
  | cons a as ih =>
    show (insertSorted le a (sortByBool le as)).countP p = _
    rw [countP_insertSorted, ih, List.countP_cons]

theorem mem_insertSorted (le : α → α → Bool) (a x : α) (l : List α) :
    x ∈ insertSorted le a l ↔ x = a ∨ x ∈ l := by
  induction l with
  | nil => simp [insertSorted]
  | cons b bs ih =>
    cases hab : le a b with
    | true => simp [insertSorted, hab]
    | false =>
      simp only [insertSorted, hab, Bool.false_eq_true, if_false, List.mem_cons, ih]
      tauto

theorem mem_sortByBool (le : α → α → Bool) (x : α) (l : List α) :
    x ∈ sortByBool le l ↔ x ∈ l := by
  induction l with
  | nil => simp [sortByBool]
  | cons a as ih =>
    show x ∈ insertSorted le a (sortByBool le as) ↔ _
    rw [mem_insertSorted, ih]
    simp

/-! ## Helper lemmas about JSON lookup under enrichment -/

theorem lookupField_append_of_some (data l : List (String × JsonVal)) (k : String)
    (v : JsonVal) (h : lookupField data k = some v) :
    lookupField (data ++ l) k = some v := by
  unfold lookupField at h ⊢
  rw [List.find?_append]
  cases hfind : List.find? (fun p => p.1 == k) data with
  | none => simp [hfind] at h
  | some q =>
    rw [hfind] at h
    simpa [Option.or] using h

theorem lookupField_append_of_none (data l : List (String × JsonVal)) (k : String)
    (h : lookupField data k = none) :
    lookupField (data ++ l) k = lookupField l k := by
  unfold lookupField at h ⊢
  rw [List.find?_append]
  cases hfind : List.find? (fun p => p.1 == k) data with
  | none => simp [hfind, Option.or]
  | some q => simp [hfind] at h

/-- Enrichment preserves every submitter-provided binding. -/
theorem enhance_preserves_keys (data : List (String × JsonVal)) (ctx : ReqCtx)
    (k : String) (v : JsonVal) (h : lookupField data k = some v) :
    lookupField (enhanceDataWithAnalytics data ctx) k = some v := by
  unfold enhanceDataWithAnalytics
  cases hmv : lookupField data "_meta" with
  | some w => simpa [hmv] using h
  | none =>
    simp only [hmv, Option.isSome_none, Bool.false_eq_true, if_false]
    exact lookupField_append_of_some _ _ _ _ h

/-- The enriched payload always carries a `_meta` binding. -/
theorem enhance_has_meta (data : List (String × JsonVal)) (ctx : ReqCtx) :
    (lookupField (enhanceDataWithAnalytics data ctx) "_meta").isSome = true := by
  unfold enhanceDataWithAnalytics
  cases hmv : lookupField data "_meta" with
  | some w => simp [hmv]
  | none =>
    simp only [hmv, Option.isSome_none, Bool.false_eq_true, if_false]
    rw [lookupField_append_of_none _ _ _ hmv]
    simp [lookupField]

/-! ## Helper lemmas about the submit pipeline -/

/-- The submission-insert success path of `submit`, fully characterised:
when the form and owner resolve, the monthly quota is not reached, the
email column value is admissible and no unique conflict occurs, the handler
answers success, appends exactly the new submission row, and appends exactly
the one confirmation log produced by `submitLog`. -/
theorem submit_success_state (Q : Plan → Quota) (st : DbState) (formId : String)
    (data : List (String × JsonVal)) (ctx : ReqCtx) (monthStart now : Nat)
    (newId logId : String) (mailResult : Except String Unit)
    (form : FormRec) (owner : UserRec) (em : Option String)
    (hf : findForm st formId = some form)
    (hu : findUser st form.userId = some owner)
    (hq : monthlyCount st owner.id monthStart < (Q owner.plan).maxSubmissionsPerMonth)
    (hem : emailForStore (lookupField data "email") = .ok em)
    (hnodup : uniqueViolation st formId em = false) :
    submit Q st formId data ctx monthStart now newId logId mailResult =
      (.ok ⟨newId, "Form submitted successfully"⟩,
       { st with
         submissions := st.submissions ++
           [⟨newId, formId, enhanceDataWithAnalytics data ctx, em, now⟩],
         notificationLogs := st.notificationLogs ++
           [submitLog formId newId logId now
             ((owner.plan == Plan.STANDARD || owner.plan == Plan.PRO)
               && settingsEnabled (findEmailSettings st formId)
               && jsonTruthyString (lookupField data "email")) mailResult] }) := by
  unfold submit
  simp only [hf, hu, hem, hnodup, Bool.false_eq_true, if_false,
    Nat.not_le.mpr hq]

/-- No log with the fresh submission id exists before the call, so the log
the handler appends is the only one filtered out for it afterwards. -/
theorem filter_fresh_append (logs : List NotificationLogRec) (newId : String)
    (l : NotificationLogRec) (hl : l.submissionId = newId)
    (hfresh : ∀ x ∈ logs, x.submissionId ≠ newId) :
    (logs ++ [l]).filter (fun x => x.submissionId == newId) = [l] := by
  rw [List.filter_append]
  have h1 : logs.filter (fun x => x.submissionId == newId) = [] := by
    rw [List.filter_eq_nil_iff]
    intro a ha
    simpa using hfresh a ha
  rw [h1]
  simp [hl]

theorem submitLog_submissionId (formId newId logId : String) (now : Nat)
    (gate : Bool) (mr : Except String Unit) :
    (submitLog formId newId logId now gate mr).submissionId = newId := by
  unfold submitLog
  cases gate <;> cases mr <;> rfl

/-- The shared skip path of `submit`: when the send condition is false the
handler creates exactly one `SKIPPED` confirmation log for the new
submission, carrying the fixed human-readable reason. -/
theorem submit_skip_filter (Q : Plan → Quota) (st : DbState) (formId : String)
    (data : List (String × JsonVal)) (ctx : ReqCtx) (monthStart now : Nat)
    (newId logId : String) (mailResult : Except String Unit)
    (form : FormRec) (owner : UserRec) (em : Option String)
    (hf : findForm st formId = some form)
    (hu : findUser st form.userId = some owner)
    (hq : monthlyCount st owner.id monthStart < (Q owner.plan).maxSubmissionsPerMonth)
    (hem : emailForStore (lookupField data "email") = .ok em)
    (hnodup : uniqueViolation st formId em = false)
    (hfresh : ∀ x ∈ st.notificationLogs, x.submissionId ≠ newId)
    (hgate : ((owner.plan == Plan.STANDARD || owner.plan == Plan.PRO)
        && settingsEnabled (findEmailSettings st formId)
        && jsonTruthyString (lookupField data "email")) = false) :
    ((submit Q st formId data ctx monthStart now newId logId mailResult).snd.notificationLogs.filter
        (fun l => l.submissionId == newId)) =
      [⟨logId, formId, newId, NotifType.SUBMISSION_CONFIRMATION, NotifStatus.SKIPPED,
        some "Email not sent - plan or settings not configured", now⟩] := by
  rw [submit_success_state Q st formId data ctx monthStart now newId logId mailResult
    form owner em hf hu hq hem hnodup]
  rw [show ({ st with
      submissions := st.submissions ++
        [⟨newId, formId, enhanceDataWithAnalytics data ctx, em, now⟩],
      notificationLogs := st.notificationLogs ++
        [submitLog formId newId logId now
          ((owner.plan == Plan.STANDARD || owner.plan == Plan.PRO)
            && settingsEnabled (findEmailSettings st formId)
            && jsonTruthyString (lookupField data "email")) mailResult] } : DbState).notificationLogs =
    st.notificationLogs ++
      [submitLog formId newId logId now
        ((owner.plan == Plan.STANDARD || owner.plan == Plan.PRO)
          && settingsEnabled (findEmailSettings st formId)
          && jsonTruthyString (lookupField data "email")) mailResult] from rfl]
  rw [filter_fresh_append _ _ _ (submitLog_submissionId _ _ _ _ _ _) hfresh]
  rw [hgate]
  rfl

theorem devSynthLog_type (s : SubmissionRec) (es : Option EmailSettingsRec) :
    (devSynthLog s es).type = NotifType.DEVELOPER_NOTIFICATION := by
  unfold devSynthLog
  split <;> rfl

theorem devSynthLog_status_skipped_or_failed (s : SubmissionRec)
    (es : Option EmailSettingsRec) :
    (devSynthLog s es).status = NotifStatus.SKIPPED ∨
      (devSynthLog s es).status = NotifStatus.FAILED := by
  unfold devSynthLog
  split
  · exact Or.inl rfl
  · exact Or.inr rfl

theorem devSynthLog_error_isSome (s : SubmissionRec) (es : Option EmailSettingsRec) :
    (devSynthLog s es).error.isSome = true := by
  unfold devSynthLog
  split <;> rfl

theorem userSynthLog_type (s : SubmissionRec) :
    (userSynthLog s).type = NotifType.SUBMISSION_CONFIRMATION := rfl

theorem countP_conf_dev_zero (s : SubmissionRec) (es : Option EmailSettingsRec) :
    List.countP (fun l => l.type == NotifType.SUBMISSION_CONFIRMATION) [devSynthLog s es] = 0 := by
  have h := devSynthLog_type s es
  simp [List.countP_cons, h]

theorem countP_dev_user_zero (s : SubmissionRec) :
    List.countP (fun l => l.type == NotifType.DEVELOPER_NOTIFICATION) [userSynthLog s] = 0 := by
  simp [List.countP_cons, userSynthLog_type]

theorem countP_of_any_false (P : List NotificationLogRec) (p : NotificationLogRec → Bool)
    (h : P.any p = false) : P.countP p = 0 := by
  rw [List.countP_eq_zero]
  exact List.any_eq_false.mp h

theorem any_map_type (P : List NotificationLogRec) (t : NotifType) :
    ((P.map toLogView).any fun l => l.type == t) = P.any fun l => l.type == t := by
  induction P with
  | nil => rfl
  | cons a as ih => simp [List.any_cons, ih, toLogView]

theorem countP_map_type (P : List NotificationLogRec) (t : NotifType) :
    List.countP (fun l => l.type == t) (P.map toLogView) =
      List.countP (fun l => l.type == t) P := by
  induction P with
  | nil => rfl
  | cons a as ih => simp [List.countP_cons, ih, toLogView]

theorem countP_comp_type (P : List NotificationLogRec) (t : NotifType) :
    List.countP ((fun l => l.type == t) ∘ toLogView) P =
      List.countP (fun l => l.type == t) P := by
  induction P with
  | nil => rfl
  | cons a as ih => simp [List.countP_cons, ih, Function.comp, toLogView]

/-- Reconciliation count for the confirmation channel: every persisted
confirmation entry is kept; when none was fetched, one transient entry is
synthesized iff the stored email is truthy. -/
theorem reconcile_countP_conf (s : SubmissionRec) (P : List NotificationLogRec)
    (es : Option EmailSettingsRec) :
    (reconcileLogs s P es).countP (fun l => l.type == NotifType.SUBMISSION_CONFIRMATION) =
      (if P.any (fun l => l.type == NotifType.SUBMISSION_CONFIRMATION)
       then P.countP (fun l => l.type == NotifType.SUBMISSION_CONFIRMATION)
       else if optStrTruthy s.email then 1 else 0) := by
  simp only [reconcileLogs]
  rw [countP_sortByBool]
  rw [any_map_type P NotifType.SUBMISSION_CONFIRMATION]
  rw [any_map_type P NotifType.DEVELOPER_NOTIFICATION]
  have hdt := devSynthLog_type s es
  cases hU : P.any (fun l => l.type == NotifType.SUBMISSION_CONFIRMATION) with
  | true =>
    cases hD : P.any (fun l => l.type == NotifType.DEVELOPER_NOTIFICATION) with
    | true =>
      simp [hU, hD, hdt, List.countP_append, List.countP_cons, countP_comp_type,
        countP_map_type, userSynthLog_type]
    | false =>
      simp [hU, hD, hdt, List.countP_append, List.countP_cons, countP_comp_type,
        countP_map_type, userSynthLog_type]
  | false =>
    have h0 : P.countP (fun l => l.type == NotifType.SUBMISSION_CONFIRMATION) = 0 :=
      countP_of_any_false P _ hU
    cases hD : P.any (fun l => l.type == NotifType.DEVELOPER_NOTIFICATION) with
    | true =>
      cases hT : optStrTruthy s.email with
      | true =>
        simp [hU, hD, hT, hdt, h0, List.countP_append, List.countP_cons, countP_comp_type,
          countP_map_type, userSynthLog_type]
      | false =>
        simp [hU, hD, hT, hdt, h0, List.countP_append, List.countP_cons, countP_comp_type,
          countP_map_type, userSynthLog_type]
    | false =>
      cases hT : optStrTruthy s.email with
      | true =>
        simp [hU, hD, hT, hdt, h0, List.countP_append, List.countP_cons, countP_comp_type,
          countP_map_type, userSynthLog_type]
      | false =>
        simp [hU, hD, hT, hdt, h0, List.countP_append, List.countP_cons, countP_comp_type,
          countP_map_type, userSynthLog_type]

/-- Reconciliation count for the developer channel: every persisted entry is
kept; when none was fetched, exactly one transient entry is synthesized. -/
theorem reconcile_countP_dev (s : SubmissionRec) (P : List NotificationLogRec)
    (es : Option EmailSettingsRec) :
    (reconcileLogs s P es).countP (fun l => l.type == NotifType.DEVELOPER_NOTIFICATION) =
      (if P.any (fun l => l.type == NotifType.DEVELOPER_NOTIFICATION)
       then P.countP (fun l => l.type == NotifType.DEVELOPER_NOTIFICATION)
       else 1) := by
  simp only [reconcileLogs]
  rw [countP_sortByBool]
  rw [any_map_type P NotifType.SUBMISSION_CONFIRMATION]
  rw [any_map_type P NotifType.DEVELOPER_NOTIFICATION]
  have hdt := devSynthLog_type s es
  cases hD : P.any (fun l => l.type == NotifType.DEVELOPER_NOTIFICATION) with
  | true =>
    cases hU : P.any (fun l => l.type == NotifType.SUBMISSION_CONFIRMATION) with
    | true =>
      simp [hU, hD, hdt, List.countP_append, List.countP_cons, countP_comp_type,
        countP_map_type, userSynthLog_type]
    | false =>
      cases hT : optStrTruthy s.email with
      | true =>
        simp [hU, hD, hT, hdt, List.countP_append, List.countP_cons, countP_comp_type,
          countP_map_type, userSynthLog_type]
      | false =>
        simp [hU, hD, hT, hdt, List.countP_append, List.countP_cons, countP_comp_type,
          countP_map_type, userSynthLog_type]
  | false =>
    have h0 : P.countP (fun l => l.type == NotifType.DEVELOPER_NOTIFICATION) = 0 :=
      countP_of_any_false P _ hD
    cases hU : P.any (fun l => l.type == NotifType.SUBMISSION_CONFIRMATION) with
    | true =>
      simp [hU, hD, hdt, h0, List.countP_append, List.countP_cons, countP_comp_type,
        countP_map_type, userSynthLog_type]
    | false =>
      cases hT : optStrTruthy s.email with
      | true =>
        simp [hU, hD, hT, hdt, h0, List.countP_append, List.countP_cons, countP_comp_type,
          countP_map_type, userSynthLog_type]
      | false =>
        simp [hU, hD, hT, hdt, h0, List.countP_append, List.countP_cons, countP_comp_type,
          countP_map_type, userSynthLog_type]

/-- Read-time synthesis over an empty fetched log list: with a truthy stored
email the reconciled view has exactly one confirmation entry, and every
confirmation entry in it is `SKIPPED` with a non-null reason. -/
theorem reconcile_empty_conf (s : SubmissionRec) (es : Option EmailSettingsRec)
    (htr : optStrTruthy s.email = true) :
    ((reconcileLogs s [] es).countP
        (fun l => l.type == NotifType.SUBMISSION_CONFIRMATION) = 1) ∧
    (∀ l ∈ reconcileLogs s [] es, l.type = NotifType.SUBMISSION_CONFIRMATION →
      l.status = NotifStatus.SKIPPED ∧ l.error.isSome = true) := by
  constructor
  · rw [reconcile_countP_conf]
    simp [htr]
  · intro l hl htype
    have hm : l ∈ sortByBool logViewLe [userSynthLog s, devSynthLog s es] := by
      simpa [reconcileLogs, htr] using hl
    rw [mem_sortByBool] at hm
    rcases List.mem_cons.mp hm with h | h
    · subst h
      exact ⟨rfl, rfl⟩
    · rcases List.mem_cons.mp h with h2 | h2
      · subst h2
        have := devSynthLog_type s es
        rw [this] at htype
        cases htype
      · cases h2

/-- Updating the nested `enabled` flag keeps the settings lookup pointed at
the same (updated) row. -/
theorem findEmailSettings_after_toggle (l : List EmailSettingsRec) (fid : String)
    (enabled : Bool) (es : EmailSettingsRec)
    (h : l.find? (fun e => e.formId == fid) = some es) :
    (l.map (fun e => if e.formId == fid then { e with enabled := enabled } else e)).find?
        (fun e => e.formId == fid) = some { es with enabled := enabled } := by
  induction l with
  | nil => simp at h
  | cons a as ih =>
    by_cases ha : (a.formId == fid) = true
    · simp only [List.find?, ha] at h
      injection h with h
      subst h
      simp only [List.map_cons, if_pos ha, List.find?, ha]
      simp [ha]
    · have ha2 : (a.formId == fid) = false := by
        cases hb : (a.formId == fid)
        · rfl
        · exact absurd hb ha
      simp only [List.find?, ha2] at h
      simp only [List.map_cons, if_neg ha, List.find?, ha2]
      simpa [ha2] using ih h

/-- An element of one page of the sorted matched submissions is a stored
submission row. -/
theorem mem_page_mem_submissions (st : DbState) (uid : String) (p : LogsParams)
    (plan : Plan) (parseDate : String → Nat) (s : SubmissionRec)
    (h : s ∈ logsPageItems st uid p plan parseDate) : s ∈ st.submissions := by
  unfold logsPageItems at h
  have h1 := List.take_subset _ _ h
  have h2 := List.drop_subset _ _ h1
  rw [mem_sortByBool] at h2
  unfold logsMatching at h2
  exact (List.mem_filter.mp h2).1

/-! ## Claim theorems -/

/-- Claim C3: when the count of submissions across all of the owner's forms
since the start of the current month has reached the plan's monthly cap,
submit is rejected with the structured 403 error carrying the current count
and the limit, and the store is completely unchanged — no submission row and
no notification log row is written. -/
theorem submit_quota_rejected_before_write
    (Q : Plan → Quota) (st : DbState) (formId : String)
    (data : List (String × JsonVal)) (ctx : ReqCtx) (monthStart now : Nat)
    (newId logId : String) (mailResult : Except String Unit)
    (form : FormRec) (owner : UserRec)
    (hf : findForm st formId = some form)
    (hu : findUser st form.userId = some owner)
    (hq : (Q owner.plan).maxSubmissionsPerMonth ≤ monthlyCount st owner.id monthStart) :
    submit Q st formId data ctx monthStart now newId logId mailResult =
      (.error (.http 403 (monthlyLimitMsg (monthlyCount st owner.id monthStart)
        (Q owner.plan).maxSubmissionsPerMonth)), st) := by
  unfold submit
  simp only [hf, hu, if_pos hq]

/-- Witness for claim C3: a FREE tenant with a zero monthly cap is rejected
with the quota message and the store stays empty. -/
theorem submit_quota_rejected_before_write_witness :
    submit c3wQ c3wSt "f1" [] noCtx 0 0 "s1" "l1" (Except.ok ()) =
      (.error (.http 403 (monthlyLimitMsg 0 0)), c3wSt) :=
  submit_quota_rejected_before_write c3wQ c3wSt "f1" [] noCtx 0 0 "s1" "l1"
    (Except.ok ()) c3wForm c3wUser rfl rfl (by decide)

/-- Claim C1 counterexample: a payload whose `email` field is the string
`""` is a string email field on a STANDARD tenant with enabled settings,
yet — the mail transport succeeding — the single confirmation log created
has status `SKIPPED`, not `SENT`: JavaScript truthiness excludes the empty
string from the send condition. -/
theorem submit_conf_empty_email_counterexample :
    (lookupField c1xData "email" = some (JsonVal.str "") ∧
     c1xUser.plan = Plan.STANDARD ∧
     settingsEnabled (findEmailSettings c1xSt "f1") = true) ∧
    ((submit smallQ c1xSt "f1" c1xData noCtx 0 5 "s1" "l1" (Except.ok ())).snd.notificationLogs.filter
        (fun l => l.submissionId == "s1")) =
      [⟨"l1", "f1", "s1", NotifType.SUBMISSION_CONFIRMATION, NotifStatus.SKIPPED,
        some "Email not sent - plan or settings not configured", 5⟩] :=
  ⟨⟨rfl, rfl, rfl⟩, rfl⟩

/-- Claim C1 (amended): for every submission created via submit whose data
contains a non-empty string `email` field, on a STANDARD/PRO owner with
enabled settings, exactly one `SUBMISSION_CONFIRMATION` log row is created
for that submission; its status is `SENT` when the mail send succeeds and
`FAILED` with the thrown message when the send throws — never absent. -/
theorem submit_confirmation_logged_once
    (Q : Plan → Quota) (st : DbState) (formId : String)
    (data : List (String × JsonVal)) (ctx : ReqCtx) (monthStart now : Nat)
    (newId logId : String) (mailResult : Except String Unit)
    (form : FormRec) (owner : UserRec) (e : String)
    (hf : findForm st formId = some form)
    (hu : findUser st form.userId = some owner)
    (hplan : owner.plan = Plan.STANDARD ∨ owner.plan = Plan.PRO)
    (hen : settingsEnabled (findEmailSettings st formId) = true)
    (he : lookupField data "email" = some (JsonVal.str e))
    (hne : e ≠ "")
    (hq : monthlyCount st owner.id monthStart < (Q owner.plan).maxSubmissionsPerMonth)
    (hnodup : uniqueViolation st formId (some e) = false)
    (hfresh : ∀ x ∈ st.notificationLogs, x.submissionId ≠ newId) :
    (submit Q st formId data ctx monthStart now newId logId mailResult).fst =
      .ok ⟨newId, "Form submitted successfully"⟩ ∧
    ((submit Q st formId data ctx monthStart now newId logId mailResult).snd.notificationLogs.filter
        (fun l => l.submissionId == newId)) =
      [⟨logId, formId, newId, NotifType.SUBMISSION_CONFIRMATION,
        (match mailResult with | .ok _ => NotifStatus.SENT | .error _ => NotifStatus.FAILED),
        (match mailResult with | .ok _ => none | .error m => some m), now⟩] := by
  have hem : emailForStore (lookupField data "email") = .ok (some e) := by
    rw [he]
    rfl
  have hmain := submit_success_state Q st formId data ctx monthStart now newId logId
    mailResult form owner (some e) hf hu hq hem hnodup
  have hgate : ((owner.plan == Plan.STANDARD || owner.plan == Plan.PRO)
      && settingsEnabled (findEmailSettings st formId)
      && jsonTruthyString (lookupField data "email")) = true := by
    have h1 : (owner.plan == Plan.STANDARD || owner.plan == Plan.PRO) = true := by
      rcases hplan with h | h <;> rw [h] <;> rfl
    have h2 : jsonTruthyString (lookupField data "email") = true := by
      rw [he]
      simp [jsonTruthyString, hne]
    rw [h1, hen, h2]
    rfl
  constructor
  · rw [hmain]
  · rw [hmain]
    simp only []
    rw [hgate]
    rw [filter_fresh_append _ _ _ (submitLog_submissionId _ _ _ _ _ _) hfresh]
    cases mailResult <;> rfl

/-- Witness for claim C1 at a concrete store, exercising the failing-send
branch: the single log for the new submission is FAILED with the thrown
message. -/
theorem submit_confirmation_logged_once_witness :
    ((submit smallQ c1xSt "f1" c1wData noCtx 0 5 "s1" "l1"
        (Except.error "smtp down")).snd.notificationLogs.filter
      (fun l => l.submissionId == "s1")) =
      [⟨"l1", "f1", "s1", NotifType.SUBMISSION_CONFIRMATION, NotifStatus.FAILED,
        some "smtp down", 5⟩] :=
  (submit_confirmation_logged_once smallQ c1xSt "f1" c1wData noCtx 0 5 "s1" "l1"
    (Except.error "smtp down") c1xForm c1xUser "a@b.c" rfl rfl (Or.inl rfl) rfl rfl
    (by decide) (by decide) rfl (by intro x hx; cases hx)).2

/-- Claim C4 counterexample: submitting the `(formId, email)` pair already
present in the store is rejected by the uniqueness constraint, but the
resulting P2002 error leaves the handler uncaught as a generic failure
(`ApiErr.thrown`), not as a structured conflict (`ApiErr.http`); the
store keeps its single submission and gains nothing. -/
theorem submit_duplicate_counterexample :
    submit smallQ c4xSt "f1" [("email", JsonVal.str "a@b.c")] noCtx 0 5 "s2" "l2"
        (Except.ok ()) =
      (Except.error (ApiErr.thrown p2002Msg), c4xSt) ∧
    c4xSt.submissions.length = 1 := ⟨rfl, rfl⟩

/-- Claim C4 (amended): a submit against a form that already holds a
submission with the same `(formId, email)` pair is rejected by the store's
uniqueness constraint, and the uncaught store error surfaces to the caller
as a generic thrown failure — not as a structured conflict error — with the
store unchanged. -/
theorem submit_duplicate_uncaught
    (Q : Plan → Quota) (st : DbState) (formId : String)
    (data : List (String × JsonVal)) (ctx : ReqCtx) (monthStart now : Nat)
    (newId logId : String) (mailResult : Except String Unit)
    (form : FormRec) (owner : UserRec) (e : String)
    (hf : findForm st formId = some form)
    (hu : findUser st form.userId = some owner)
    (hq : monthlyCount st owner.id monthStart < (Q owner.plan).maxSubmissionsPerMonth)
    (he : lookupField data "email" = some (JsonVal.str e))
    (hdup : uniqueViolation st formId (some e) = true) :
    submit Q st formId data ctx monthStart now newId logId mailResult =
      (.error (.thrown p2002Msg), st) := by
  unfold submit
  simp only [hf, hu, Nat.not_le.mpr hq, if_false, he]
  simp [emailForStore, hdup]

/-- Witness for claim C4 at the concrete duplicate store. -/
theorem submit_duplicate_uncaught_witness :
    submit smallQ c4xSt "f1" c1wData noCtx 0 5 "s2" "l2" (Except.error "never sent") =
      (.error (.thrown p2002Msg), c4xSt) :=
  submit_duplicate_uncaught smallQ c4xSt "f1" c1wData noCtx 0 5 "s2" "l2"
    (Except.error "never sent") c1xForm c1xUser "a@b.c" rfl rfl (by decide) rfl rfl

/-- Claim C9: the payload stored for an accepted submission is exactly the
enrichment of the submitter's payload: every submitter-provided key still
maps to its original value, a `_meta` binding is present, and no original
binding is overwritten (lookup still returns the submitter's value). -/
theorem submit_data_roundtrip
    (Q : Plan → Quota) (st : DbState) (formId : String)
    (data : List (String × JsonVal)) (ctx : ReqCtx) (monthStart now : Nat)
    (newId logId : String) (mailResult : Except String Unit)
    (form : FormRec) (owner : UserRec) (em : Option String)
    (hf : findForm st formId = some form)
    (hu : findUser st form.userId = some owner)
    (hq : monthlyCount st owner.id monthStart < (Q owner.plan).maxSubmissionsPerMonth)
    (hem : emailForStore (lookupField data "email") = .ok em)
    (hnodup : uniqueViolation st formId em = false) :
    (submit Q st formId data ctx monthStart now newId logId mailResult).snd.submissions =
      st.submissions ++ [⟨newId, formId, enhanceDataWithAnalytics data ctx, em, now⟩] ∧
    (∀ (k : String) (v : JsonVal), lookupField data k = some v →
      lookupField (enhanceDataWithAnalytics data ctx) k = some v) ∧
    (lookupField (enhanceDataWithAnalytics data ctx) "_meta").isSome = true := by
  refine ⟨?_, fun k v h => enhance_preserves_keys data ctx k v h, enhance_has_meta data ctx⟩
  rw [submit_success_state Q st formId data ctx monthStart now newId logId mailResult
    form owner em hf hu hq hem hnodup]

/-- Witness for claim C9 at a concrete store: the stored payload is the
enriched one. -/
theorem submit_data_roundtrip_witness :
    (submit smallQ c1xSt "f1" c1wData noCtx 0 5 "s1" "l1" (Except.ok ())).snd.submissions =
      [⟨"s1", "f1", enhanceDataWithAnalytics c1wData noCtx, some "a@b.c", 5⟩] :=
  (submit_data_roundtrip smallQ c1xSt "f1" c1wData noCtx 0 5 "s1" "l1" (Except.ok ())
    c1xForm c1xUser (some "a@b.c") rfl rfl (by decide) rfl rfl).1

/-- Claim C7: whenever the form has no settings row or its settings are
disabled — or the owner is FREE, or the payload has no usable email — the
confirmation-channel log visible for the submission is `SKIPPED` with the
non-null human-readable reason: at intake the handler persists exactly that
log, and at read time (no persisted confirmation log fetched, truthy stored
email) the reconciler synthesizes exactly one such transient entry. -/
theorem conf_channel_skipped
    (Q : Plan → Quota) (st : DbState) (formId : String)
    (data : List (String × JsonVal)) (ctx : ReqCtx) (monthStart now : Nat)
    (newId logId : String) (mailResult : Except String Unit)
    (form : FormRec) (owner : UserRec) (em : Option String)
    (hf : findForm st formId = some form)
    (hu : findUser st form.userId = some owner)
    (hq : monthlyCount st owner.id monthStart < (Q owner.plan).maxSubmissionsPerMonth)
    (hem : emailForStore (lookupField data "email") = .ok em)
    (hnodup : uniqueViolation st formId em = false)
    (hfresh : ∀ x ∈ st.notificationLogs, x.submissionId ≠ newId)
    (hc : findEmailSettings st formId = none
        ∨ settingsEnabled (findEmailSettings st formId) = false
        ∨ owner.plan = Plan.FREE
        ∨ jsonTruthyString (lookupField data "email") = false) :
    (((submit Q st formId data ctx monthStart now newId logId mailResult).snd.notificationLogs.filter
        (fun l => l.submissionId == newId)) =
      [⟨logId, formId, newId, NotifType.SUBMISSION_CONFIRMATION, NotifStatus.SKIPPED,
        some "Email not sent - plan or settings not configured", now⟩]) ∧
    (∀ (s : SubmissionRec) (es : Option EmailSettingsRec),
      optStrTruthy s.email = true →
      ((reconcileLogs s [] es).countP
          (fun l => l.type == NotifType.SUBMISSION_CONFIRMATION) = 1 ∧
        ∀ l ∈ reconcileLogs s [] es,
          l.type = NotifType.SUBMISSION_CONFIRMATION →
          l.status = NotifStatus.SKIPPED ∧ l.error.isSome = true)) := by
  have hgate : ((owner.plan == Plan.STANDARD || owner.plan == Plan.PRO)
      && settingsEnabled (findEmailSettings st formId)
      && jsonTruthyString (lookupField data "email")) = false := by
    rcases hc with h | h | h | h
    · rw [h]
      simp [settingsEnabled]
    · rw [h]
      simp
    · rw [h]
      rfl
    · rw [h]
      simp
  refine ⟨?_, fun s es htr => reconcile_empty_conf s es htr⟩
  exact submit_skip_filter Q st formId data ctx monthStart now newId logId mailResult
    form owner em hf hu hq hem hnodup hfresh hgate

/-- Witness for claim C7: a FREE owner with enabled settings and a valid
email — the plan gate forces the skip path and the persisted log is the
SKIPPED one. -/
theorem conf_channel_skipped_witness :
    ((submit smallQ c7wSt "f1" c1wData noCtx 0 5 "s1" "l1" (Except.ok ())).snd.notificationLogs.filter
        (fun l => l.submissionId == "s1")) =
      [⟨"l1", "f1", "s1", NotifType.SUBMISSION_CONFIRMATION, NotifStatus.SKIPPED,
        some "Email not sent - plan or settings not configured", 5⟩] :=
  (conf_channel_skipped smallQ c7wSt "f1" c1wData noCtx 0 5 "s1" "l1" (Except.ok ())
    c1xForm c7wUser (some "a@b.c") rfl rfl (by decide) rfl rfl
    (by intro x hx; cases hx) (Or.inr (Or.inr (Or.inl rfl)))).1

/-- Claim C6: a `getSubmissionLogs` request that supplies a (truthy)
`startDate` or `endDate` while the caller's plan is not PRO is rejected with
the plan-restriction error naming the PRO tier and is never answered with a
result set; the handler's catch block surfaces it with status 500, keeping
the plan-restriction message intact. -/
theorem getSubmissionLogs_plan_gate
    (st : DbState) (uid : String) (p : LogsParams) (parseDate : String → Nat)
    (user : UserRec)
    (hu : findUser st uid = some user)
    (hplan : user.plan ≠ Plan.PRO)
    (hdate : optStrTruthy p.startDate = true ∨ optStrTruthy p.endDate = true) :
    getSubmissionLogs st uid p parseDate =
      .error (.http 500 "Date filtering is only available with the PRO plan") := by
  have hreq : dateFilterRequested p = true := by
    unfold dateFilterRequested
    rcases hdate with h | h
    · rw [h]
      rfl
    · rw [h]
      simp
  have hb : (user.plan != Plan.PRO) = true := by
    rw [bne_iff_ne]
    exact hplan
  unfold getSubmissionLogs getSubmissionLogsInner
  simp only [hu, hreq, hb, Bool.and_self, if_true]

/-- Witness for claim C6: a STANDARD tenant supplying a start date gets the
plan-restriction rejection. -/
theorem getSubmissionLogs_plan_gate_witness :
    getSubmissionLogs c6wSt "u1" c6wParams zeroDate =
      .error (.http 500 "Date filtering is only available with the PRO plan") :=
  getSubmissionLogs_plan_gate c6wSt "u1" c6wParams zeroDate
    ⟨"u1", Plan.STANDARD, "owner@example.com"⟩ rfl (by decide) (Or.inl rfl)

/-- Claim C2 counterexample: for a submission with two persisted
`SUBMISSION_CONFIRMATION` logs, the log view returned by
`getSubmissionLogs` contains both entries of that type — not at most one
effective entry, and not only the most recent. -/
theorem getSubmissionLogs_two_conf_counterexample :
    (match getSubmissionLogs c2xSt "u1" defaultParams zeroDate with
     | .ok r => r.submissions.map
         (fun v => v.notificationLogs.countP
           (fun l => l.type == NotifType.SUBMISSION_CONFIRMATION))
     | .error _ => []) = [2] := by rfl

/-- Claim C2 (amended): every submission view returned by
`getSubmissionLogs` carries, per type, all persisted (filter-matching) logs
of that type — not only the most recent; when none is fetched, a transient
entry is synthesized unconditionally for `DEVELOPER_NOTIFICATION` but only
under a truthy stored email for `SUBMISSION_CONFIRMATION` (a submission
with no stored email and no persisted confirmation log shows no
confirmation entry at all). -/
theorem getSubmissionLogs_reconcile_counts
    (st : DbState) (uid : String) (p : LogsParams) (parseDate : String → Nat)
    (r : LogsResult) (hok : getSubmissionLogs st uid p parseDate = .ok r)
    (v : SubmissionView) (hv : v ∈ r.submissions) :
    ∃ s : SubmissionRec, s ∈ st.submissions ∧ v = submissionView st p s ∧
      v.notificationLogs.countP (fun l => l.type == NotifType.SUBMISSION_CONFIRMATION) =
        (if (persistedLogs st s.id p.status p.type).any
              (fun l => l.type == NotifType.SUBMISSION_CONFIRMATION)
         then (persistedLogs st s.id p.status p.type).countP
              (fun l => l.type == NotifType.SUBMISSION_CONFIRMATION)
         else if optStrTruthy s.email then 1 else 0) ∧
      v.notificationLogs.countP (fun l => l.type == NotifType.DEVELOPER_NOTIFICATION) =
        (if (persistedLogs st s.id p.status p.type).any
              (fun l => l.type == NotifType.DEVELOPER_NOTIFICATION)
         then (persistedLogs st s.id p.status p.type).countP
              (fun l => l.type == NotifType.DEVELOPER_NOTIFICATION)
         else 1) := by
  unfold getSubmissionLogs at hok
  cases hInner : getSubmissionLogsInner st uid p parseDate with
  | error e =>
    rw [hInner] at hok
    cases e <;> simp at hok
  | ok r0 =>
    rw [hInner] at hok
    simp only [Except.ok.injEq] at hok
    subst hok
    unfold getSubmissionLogsInner at hInner
    cases hu : findUser st uid with
    | none =>
      rw [hu] at hInner
      simp at hInner
    | some user =>
      simp only [hu] at hInner
      by_cases hd : (dateFilterRequested p && user.plan != Plan.PRO) = true
      · rw [if_pos hd] at hInner
        simp at hInner
      · rw [if_neg hd] at hInner
        simp only [Except.ok.injEq] at hInner
        subst hInner
        have hv2 : v ∈ (logsPageItems st uid p user.plan parseDate).map (submissionView st p) := hv
        rcases List.mem_map.mp hv2 with ⟨s, hs, hvs⟩
        subst hvs
        exact ⟨s, mem_page_mem_submissions st uid p user.plan parseDate s hs, rfl,
          reconcile_countP_conf s (persistedLogs st s.id p.status p.type)
            (findEmailSettings st s.formId),
          reconcile_countP_dev s (persistedLogs st s.id p.status p.type)
            (findEmailSettings st s.formId)⟩

/-- Witness for claim C2: the query over a store with one submission and no
persisted logs returns one view, and the count equations hold there. -/
theorem getSubmissionLogs_reconcile_counts_witness :
    ∃ s : SubmissionRec, s ∈ c2wSt.submissions ∧
      c2wView = submissionView c2wSt defaultParams s ∧
      c2wView.notificationLogs.countP (fun l => l.type == NotifType.SUBMISSION_CONFIRMATION) =
        (if (persistedLogs c2wSt s.id defaultParams.status defaultParams.type).any
              (fun l => l.type == NotifType.SUBMISSION_CONFIRMATION)
         then (persistedLogs c2wSt s.id defaultParams.status defaultParams.type).countP
              (fun l => l.type == NotifType.SUBMISSION_CONFIRMATION)
         else if optStrTruthy s.email then 1 else 0) ∧
      c2wView.notificationLogs.countP (fun l => l.type == NotifType.DEVELOPER_NOTIFICATION) =
        (if (persistedLogs c2wSt s.id defaultParams.status defaultParams.type).any
              (fun l => l.type == NotifType.DEVELOPER_NOTIFICATION)
         then (persistedLogs c2wSt s.id defaultParams.status defaultParams.type).countP
              (fun l => l.type == NotifType.DEVELOPER_NOTIFICATION)
         else 1) :=
  getSubmissionLogs_reconcile_counts c2wSt "u1" defaultParams zeroDate c2wRes rfl c2wView
    (by rw [show c2wRes.submissions = [c2wView] from rfl]; exact List.mem_singleton.mpr rfl)

/-- Claim C5 counterexample: in `deleteSubmission`, a store failure of the
second statement (the submission delete) after the first statement (the log
delete) has run leaves the log row deleted and the submission row intact —
not zero rows deleted. -/
theorem deleteSubmission_not_atomic_counterexample :
    (deleteSubmission c5St "u1" "s1"
        (some (SubDelFail.onSubmission "db down"))).snd.notificationLogs = [] ∧
    (deleteSubmission c5St "u1" "s1"
        (some (SubDelFail.onSubmission "db down"))).snd.submissions = [c5Sub] ∧
    (deleteSubmission c5St "u1" "s1" (some (SubDelFail.onSubmission "db down"))).fst =
      Except.error (ApiErr.http 500 "Failed to delete submission") :=
  ⟨rfl, rfl, rfl⟩

/-- Claim C5 (amended): form deletion runs its four deletes inside one
transaction, so any store failure leaves the store unchanged, and success
removes the logs, submissions, settings and the form together; but deleting
a single submission issues its two deletes as separate statements with no
transaction: when the submission delete fails after the log delete, the
submission's logs are gone while the submission row remains. -/
theorem cascade_delete_atomicity
    (st : DbState) (uid sid m : String) (sub : SubmissionRec) (form : FormRec)
    (hs : st.submissions.find? (fun s => s.id == sid) = some sub)
    (hf : findForm st sub.formId = some form)
    (hown : form.userId = uid) :
    (∀ (st2 : DbState) (uid2 fid2 m2 : String),
        (formDelete st2 uid2 fid2 (some m2)).snd = st2) ∧
    (∀ (st2 : DbState) (uid2 fid2 : String) (f : FormRec),
        st2.forms.find? (fun x => x.id == fid2 && x.userId == uid2) = some f →
        formDelete st2 uid2 fid2 none =
          (.ok (), { st2 with
            forms := st2.forms.filter (fun x => x.id != fid2),
            emailSettings := st2.emailSettings.filter (fun x => x.formId != fid2),
            submissions := st2.submissions.filter (fun x => x.formId != fid2),
            notificationLogs := st2.notificationLogs.filter (fun x => x.formId != fid2) })) ∧
    deleteSubmission st uid sid (some (.onSubmission m)) =
      (.error (.http 500 "Failed to delete submission"),
       { st with notificationLogs :=
           st.notificationLogs.filter (fun l => l.submissionId != sid) }) := by
  refine ⟨?_, ?_, ?_⟩
  · intro st2 uid2 fid2 m2
    unfold formDelete
    cases st2.forms.find? (fun f => f.id == fid2 && f.userId == uid2) <;> rfl
  · intro st2 uid2 fid2 f hf2
    unfold formDelete
    rw [hf2]
  · unfold deleteSubmission
    simp only [hs, hf]
    rw [hown]
    simp

/-- Witness for claim C5 at the concrete one-log store. -/
theorem cascade_delete_atomicity_witness :
    deleteSubmission c5St "u1" "s1" (some (SubDelFail.onSubmission "io")) =
      (.error (.http 500 "Failed to delete submission"),
       { c5St with notificationLogs :=
           c5St.notificationLogs.filter (fun l => l.submissionId != "s1") }) :=
  (cascade_delete_atomicity c5St "u1" "s1" "io" c5Sub ⟨"f1", "F", "u1"⟩ rfl rfl rfl).2.2

/-- Claim C8 counterexample: a FREE tenant calling `updateEmailSettings`
with `formId = 'global'` succeeds and mutates their GlobalSettings row —
the global branch of that handler performs no plan check. -/
theorem updateEmailSettings_global_no_gate_counterexample :
    (findUser c8St "u1").map (fun u => u.plan) = some Plan.FREE ∧
    updateEmailSettings c8St "u1" "global" (some true) none =
      (Except.ok (true, 10), { c8St with globalSettings := [⟨"u1", true, 10⟩] }) :=
  ⟨rfl, rfl⟩

/-- Claim C8 (amended): `updateGlobalSettings` rejects every non-PRO tenant
with the 403 plan-restriction error naming the PRO plan and leaves the
store unchanged; but `updateEmailSettings` on the literal form id `global`
runs the GlobalSettings upsert — which always succeeds — without any plan
check, so a non-PRO tenant can still mutate GlobalSettings through it. -/
theorem globalSettings_plan_gate
    (st : DbState) (uid : String) (devE : Option Bool) (maxH : Option Nat)
    (user : UserRec)
    (hu : findUser st uid = some user)
    (hplan : user.plan ≠ Plan.PRO) :
    updateGlobalSettings st uid devE maxH = (.error (.http 403 proOnlyMsg), st) ∧
    updateEmailSettings st uid "global" devE maxH = upsertGlobal st uid devE maxH ∧
    ∃ v, (upsertGlobal st uid devE maxH).fst = Except.ok v := by
  refine ⟨?_, rfl, ?_⟩
  · unfold updateGlobalSettings
    have hb : (user.plan != Plan.PRO) = true := by
      rw [bne_iff_ne]
      exact hplan
    simp only [hu, hb, if_true]
  · unfold upsertGlobal
    cases st.globalSettings.find? (fun g => g.userId == uid) with
    | some g => exact ⟨_, rfl⟩
    | none => exact ⟨_, rfl⟩

/-- Witness for claim C8: the FREE tenant of the concrete store is rejected
by `updateGlobalSettings`. -/
theorem globalSettings_plan_gate_witness :
    updateGlobalSettings c8St "u1" (some true) none =
      (.error (.http 403 proOnlyMsg), c8St) :=
  (globalSettings_plan_gate c8St "u1" (some true) none
    ⟨"u1", Plan.FREE, "owner@example.com"⟩ rfl (by decide)).1

/-- Claim C10: `toggleEmailSettings` performs no plan check on the server:
for any authenticated owner of a form with a settings row — the owner's
plan never being read — it sets `enabled` to the requested value and
reports success; the STANDARD/PRO gate for confirmation emails is enforced
only later, inside submit at send time, where a FREE owner's submission
gets the SKIPPED confirmation log even with enabled settings. -/
theorem toggleEmailSettings_no_plan_gate
    (st : DbState) (uid fid : String) (enabled : Bool) (form : FormRec)
    (es : EmailSettingsRec)
    (hform : st.forms.find? (fun f => f.id == fid && f.userId == uid) = some form)
    (hes : findEmailSettings st fid = some es) :
    (toggleEmailSettings st uid fid enabled).fst = .ok true ∧
    settingsEnabled (findEmailSettings (toggleEmailSettings st uid fid enabled).snd fid) =
      enabled ∧
    (∀ (Q2 : Plan → Quota) (st2 : DbState) (formId2 : String)
        (data2 : List (String × JsonVal)) (ctx2 : ReqCtx) (monthStart2 now2 : Nat)
        (newId2 logId2 : String) (mr2 : Except String Unit)
        (form2 : FormRec) (owner2 : UserRec) (em2 : Option String),
      findForm st2 formId2 = some form2 →
      findUser st2 form2.userId = some owner2 →
      owner2.plan = Plan.FREE →
      monthlyCount st2 owner2.id monthStart2 < (Q2 owner2.plan).maxSubmissionsPerMonth →
      emailForStore (lookupField data2 "email") = .ok em2 →
      uniqueViolation st2 formId2 em2 = false →
      (∀ x ∈ st2.notificationLogs, x.submissionId ≠ newId2) →
      ((submit Q2 st2 formId2 data2 ctx2 monthStart2 now2 newId2 logId2 mr2).snd.notificationLogs.filter
          (fun l => l.submissionId == newId2)) =
        [⟨logId2, formId2, newId2, NotifType.SUBMISSION_CONFIRMATION, NotifStatus.SKIPPED,
          some "Email not sent - plan or settings not configured", now2⟩]) := by
  have hstate : toggleEmailSettings st uid fid enabled =
      (.ok true,
       { st with emailSettings :=
           st.emailSettings.map (fun e => if e.formId == fid then { e with enabled := enabled } else e) }) := by
    unfold toggleEmailSettings
    simp only [hform, hes]
  refine ⟨?_, ?_, ?_⟩
  · rw [hstate]
  · rw [hstate]
    show settingsEnabled
      ((st.emailSettings.map (fun e => if e.formId == fid then { e with enabled := enabled } else e)).find?
        (fun e => e.formId == fid)) = enabled
    rw [findEmailSettings_after_toggle st.emailSettings fid enabled es hes]
    rfl
  · intro Q2 st2 formId2 data2 ctx2 monthStart2 now2 newId2 logId2 mr2 form2 owner2 em2
      hf2 hu2 howner hq2 hem2 hnodup2 hfresh2
    refine submit_skip_filter Q2 st2 formId2 data2 ctx2 monthStart2 now2 newId2 logId2 mr2
      form2 owner2 em2 hf2 hu2 hq2 hem2 hnodup2 hfresh2 ?_
    rw [howner]
    rfl

/-- Witness for claim C10: the FREE owner of the concrete store enables
confirmation emails with success and the flag is persisted. -/
theorem toggleEmailSettings_no_plan_gate_witness :
    (toggleEmailSettings c10St "u1" "f1" true).fst = Except.ok true ∧
    settingsEnabled (findEmailSettings (toggleEmailSettings c10St "u1" "f1" true).snd "f1") =
      true :=
  ⟨(toggleEmailSettings_no_plan_gate c10St "u1" "f1" true ⟨"f1", "F", "u1"⟩ c10ES rfl rfl).1,
   (toggleEmailSettings_no_plan_gate c10St "u1" "f1" true ⟨"f1", "F", "u1"⟩ c10ES rfl rfl).2.1⟩
